import Mathlib

/-!
Shallow embedding of `omnivore_rss_export.py`, a single-file tool that
fetches RSS subscription metadata from the Omnivore GraphQL API and
serializes it to an OPML document.

Modelling conventions:
* Python `datetime` instants are modelled as `Int` microseconds since the
  Unix epoch (aware datetimes compare and subtract as absolute instants;
  microseconds are `datetime`'s full resolution, so
  `abs(td.total_seconds()) < 60` holds exactly when the microsecond
  difference is below `60 * 1000000`).
* Python `Optional[T]` fields are `Option` fields.
* JSON values are modelled by the inductive `JValue`; Python `dict.get`
  is `jGet`, Python truthiness of an optional string (`None` and `""`
  are falsy) is `pyFalsy`.
* Exceptions raised by `get_subscriptions` / `main` are modelled with
  `Except` / explicit result types.
-/

set_option maxHeartbeats 1000000
set_option maxRecDepth 10000

/-- Python truthiness of an `Optional[str]`: `None` and the empty string
are falsy, every other string (including whitespace-only) is truthy. -/
def pyFalsy : Option String → Bool
  | none => true
  | some s => s = ""

/-- Python string slicing `s[:n]` (by code points). -/
def pyTake (s : String) (n : Nat) : String :=
  String.mk (s.data.take n)

/-- Python `", ".join(l)`. -/
def joinWith (sep : String) : List String → String
  | [] => ""
  | [x] => x
  | x :: xs => x ++ sep ++ joinWith sep xs

/-- The `Subscription` dataclass of the source (`@dataclass class
Subscription`). Timestamp fields hold microseconds since the epoch. -/
structure Subscription where
  name : String
  url : Option String := none
  folder : Option String := none
  created_at : Option Int := none
  last_fetched_at : Option Int := none
  description : Option String := none
  newsletter_email : Option String := none
  refreshed_at : Option Int := none
  count : Option Int := none
  icon : Option String := none
  is_private : Option Bool := none
  auto_add_to_library : Option Bool := none
  fetch_content : Option Bool := none
  failed_at : Option Int := none
deriving DecidableEq

/-- The drop condition of the `--exclude-unfetched` filter in `main`:
`sub.last_fetched_at is None or (sub.created_at and sub.last_fetched_at
and abs((sub.last_fetched_at - sub.created_at).total_seconds()) < 60)`.
`datetime` objects are always truthy, so the truthiness tests are
presence tests. -/
def droppedByFilter (sub : Subscription) : Bool :=
  sub.last_fetched_at.isNone ||
    (match sub.created_at, sub.last_fetched_at with
     | some ca, some lf => decide ((lf - ca).natAbs < 60 * 1000000)
     | _, _ => false)

/-- The list comprehension in `main` that keeps exactly the subscriptions
not satisfying the drop condition. -/
def filterUnfetched (subs : List Subscription) : List Subscription :=
  subs.filter (fun sub => !droppedByFilter sub)

/-- Value of a decimal digit character. -/
def digitVal (c : Char) : Nat := c.toNat - 48

def readNatAux : List Char → Nat → Option Nat
  | [], acc => some acc
  | c :: cs, acc =>
    if c.isDigit then readNatAux cs (acc * 10 + digitVal c) else none

/-- A non-empty all-digit numeral. -/
def readNat (cs : List Char) : Option Nat :=
  match cs with
  | [] => none
  | _ :: _ => readNatAux cs 0

def isLeapYear (y : Nat) : Bool :=
  y % 4 = 0 && (y % 100 ≠ 0 || y % 400 = 0)

def daysInMonth (y m : Nat) : Nat :=
  if m = 2 then (if isLeapYear y then 29 else 28)
  else if m = 4 ∨ m = 6 ∨ m = 9 ∨ m = 11 then 30
  else 31

/-- The date ranges `datetime` accepts (`MINYEAR = 1`, `MAXYEAR = 9999`). -/
def validDate (y m d : Nat) : Bool :=
  1 ≤ y && y ≤ 9999 && 1 ≤ m && m ≤ 12 && 1 ≤ d && d ≤ daysInMonth y m

/-- Days from the Unix epoch to the civil date `y-m-d` (proleptic
Gregorian; the standard era-based algorithm). -/
def daysFromCivil (y m d : Nat) : Int :=
  let yAdj : Nat := if m ≤ 2 then y - 1 else y
  let era : Nat := yAdj / 400
  let yoe : Nat := yAdj - era * 400
  let mp : Nat := (m + 9) % 12
  let doy : Nat := (153 * mp + 2) / 5 + d - 1
  let doe : Nat := yoe * 365 + yoe / 4 - yoe / 100 + doy
  (era * 146097 + doe : Int) - 719468

/-- Splits a character list at the first `+` or `-` sign, returning the
part before it and, when a sign is present, the sign and the rest. -/
def splitAtSign : List Char → (List Char × Option (Char × List Char))
  | [] => ([], none)
  | c :: cs =>
    if c = '+' ∨ c = '-' then ([], some (c, cs))
    else
      let (a, b) := splitAtSign cs
      (c :: a, b)

/-- Parse `HH:MM[:SS[.fff|.ffffff]]` into microseconds. -/
def parseHMS (cs : List Char) : Option Nat :=
  match cs with
  | h1 :: h2 :: ':' :: m1 :: m2 :: rest =>
    match readNat [h1, h2], readNat [m1, m2] with
    | some hh, some mm =>
      if hh < 24 ∧ mm < 60 then
        match rest with
        | [] => some ((hh * 3600 + mm * 60) * 1000000)
        | ':' :: s1 :: s2 :: rest2 =>
          match readNat [s1, s2] with
          | some ss =>
            if ss < 60 then
              match rest2 with
              | [] => some ((hh * 3600 + mm * 60 + ss) * 1000000)
              | '.' :: frac =>
                match readNat frac with
                | some f =>
                  if frac.length = 3 then
                    some ((hh * 3600 + mm * 60 + ss) * 1000000 + f * 1000)
                  else if frac.length = 6 then
                    some ((hh * 3600 + mm * 60 + ss) * 1000000 + f)
                  else none
                | none => none
              | _ => none
            else none
          | none => none
        | _ => none
      else none
    | _, _ => none
  | _ => none

/-- Parse a time of day with an optional `±HH:MM` UTC offset; the result
is microseconds relative to midnight UTC (offset already applied). -/
def parseTimeOfDay (cs : List Char) : Option Int :=
  match splitAtSign cs with
  | (timePart, off) =>
    match parseHMS timePart with
    | none => none
    | some t =>
      match off with
      | none => some (t : Int)
      | some (sgn, offChars) =>
        match parseHMS offChars with
        | none => none
        | some o =>
          if sgn = '+' then some ((t : Int) - (o : Int))
          else some ((t : Int) + (o : Int))

/-- Modelled from the documented behaviour of Python's
`datetime.fromisoformat` (an external library call in the source), for
the ISO-8601 profile relevant here: `YYYY-MM-DD`, optionally followed by
a one-character separator and `HH:MM[:SS[.fff|.ffffff]]`, optionally
followed by a `±HH:MM` UTC offset. Returns the absolute instant in
microseconds since the Unix epoch, `none` where `fromisoformat` raises
`ValueError`. -/
def fromIso (s : String) : Option Int :=
  match s.data with
  | y1 :: y2 :: y3 :: y4 :: '-' :: m1 :: m2 :: '-' :: d1 :: d2 :: rest =>
    match readNat [y1, y2, y3, y4], readNat [m1, m2], readNat [d1, d2] with
    | some y, some mo, some d =>
      if validDate y mo d then
        match rest with
        | [] => some (daysFromCivil y mo d * 86400000000)
        | _ :: timeChars =>
          match parseTimeOfDay timeChars with
          | some t => some (daysFromCivil y mo d * 86400000000 + t)
          | none => none
      else none
    | _, _, _ => none
  | _ => none

/-- The source's `s.replace("Z", "+00:00")` (the pattern is a single
character, so the replacement is per-character). -/
def replaceZ (s : String) : String :=
  String.mk ((s.data.map (fun c => if c = 'Z' then "+00:00".data else [c])).flatten)

/-- JSON values, as decoded by `response.json()`. -/
inductive JValue where
  | null
  | bool (b : Bool)
  | num (n : Int)
  | str (s : String)
  | arr (items : List JValue)
  | obj (fields : List (String × JValue))

def jLookup : List (String × JValue) → String → Option JValue
  | [], _ => none
  | (k, v) :: rest, key => if k = key then some v else jLookup rest key

/-- Python `d.get(key)` (and the `key in d` membership test) on a JSON
object; `none` when the key is absent or the value is not an object. -/
def jGet : JValue → String → Option JValue
  | JValue.obj fields, key => jLookup fields key
  | _, _ => none

/-- Helper for `sub.get(key)` followed by the Python truthiness test used before
each timestamp parse: returns the string only when it is present and
non-empty (JSON `null` and `""` are falsy, like an absent key). -/
def getTruthyStr (j : JValue) (key : String) : Option String :=
  match jGet j key with
  | some (JValue.str s) => if s = "" then none else some s
  | _ => none

/-- Helper for `sub.get(key)` on a string-valued field, kept as-is. -/
def optStrField (j : JValue) (key : String) : Option String :=
  match jGet j key with
  | some (JValue.str s) => some s
  | _ => none

def optIntField (j : JValue) (key : String) : Option Int :=
  match jGet j key with
  | some (JValue.num n) => some n
  | _ => none

def optBoolField (j : JValue) (key : String) : Option Bool :=
  match jGet j key with
  | some (JValue.bool b) => some b
  | _ => none

/-- The failure modes of `get_subscriptions`, each an exception raised in
the source. `transport` models `raise_for_status` together with the
truncated body excerpt the source prints for a non-200 status. -/
inductive FetchError where
  | transport (status : Nat) (bodyExcerpt : String)
  | jsonDecode
  | graphqlErrors (errs : JValue)
  | subscriptionError (codes : JValue)
  | missingField (key : String)
  | invalidTimestamp (s : String)

/-- One timestamp field of the mapping step:
`datetime.fromisoformat(sub[key].replace("Z", "+00:00")) if sub.get(key)
else None`, with an unparseable present string raising `ValueError`. -/
def parseTimestampField (j : JValue) (key : String) :
    Except FetchError (Option Int) :=
  match getTruthyStr j key with
  | none => Except.ok none
  | some s =>
    match fromIso (replaceZ s) with
    | some t => Except.ok (some t)
    | none => Except.error (FetchError.invalidTimestamp s)

/-- The body of the `for sub in result["subscriptions"]` loop: parse the
four timestamp fields (in source order), then build the `Subscription`
record from the item's fields. The GraphQL query declares `name` as a
string, so the item is modelled with a string `name`. -/
def parseSubscription (j : JValue) : Except FetchError Subscription :=
  match parseTimestampField j "createdAt", parseTimestampField j "lastFetchedAt",
        parseTimestampField j "refreshedAt", parseTimestampField j "failedAt" with
  | Except.ok created_at, Except.ok last_fetched_at,
      Except.ok refreshed_at, Except.ok failed_at =>
    match jGet j "name" with
    | some (JValue.str name) =>
      Except.ok
        { name := name
          url := optStrField j "url"
          folder := optStrField j "folder"
          created_at := created_at
          last_fetched_at := last_fetched_at
          description := optStrField j "description"
          newsletter_email := optStrField j "newsletterEmail"
          refreshed_at := refreshed_at
          count := optIntField j "count"
          icon := optStrField j "icon"
          is_private := optBoolField j "isPrivate"
          auto_add_to_library := optBoolField j "autoAddToLibrary"
          fetch_content := optBoolField j "fetchContent"
          failed_at := failed_at }
    | _ => Except.error (FetchError.missingField "name")
  | Except.error e, _, _, _ => Except.error e
  | _, Except.error e, _, _ => Except.error e
  | _, _, Except.error e, _ => Except.error e
  | _, _, _, Except.error e => Except.error e

/-- The subscription loop: items are mapped in order and the first
raised exception aborts the whole call. -/
def mapExcept (f : α → Except ε β) : List α → Except ε (List β)
  | [] => Except.ok []
  | a :: as =>
    match f a with
    | Except.error e => Except.error e
    | Except.ok b =>
      match mapExcept f as with
      | Except.error e => Except.error e
      | Except.ok bs => Except.ok (b :: bs)

/-- The HTTP response `requests.post` hands back: status code, raw text,
and the result of `response.json()` (`none` when the body is not valid
JSON and the decode raises). -/
structure HttpResponse where
  statusCode : Nat
  text : String
  body : Option JValue

/-- Predicate for `requests.Response.raise_for_status`: it raises exactly for status codes
400–599 (documented behaviour of the external `requests` library). -/
def raisesForStatus (status : Nat) : Bool :=
  decide (400 ≤ status) && decide (status < 600)

/-- Lookup `data["data"]["subscriptions"]` (a missing key raises `KeyError`). -/
def dataSubscriptions (data : JValue) : Option JValue :=
  match jGet data "data" with
  | some d => jGet d "subscriptions"
  | none => none

/-- Model of `OmnivoreClient.get_subscriptions`, from the response onward:
`raise_for_status`, then the top-level `"errors" in data` check, then
`result = data["data"]["subscriptions"]`, then the `"errorCodes" in
result` check, then the mapping loop over `result["subscriptions"]`. -/
def get_subscriptions (resp : HttpResponse) :
    Except FetchError (List Subscription) :=
  if raisesForStatus resp.statusCode then
    Except.error (FetchError.transport resp.statusCode (pyTake resp.text 500))
  else
    match resp.body with
    | none => Except.error FetchError.jsonDecode
    | some data =>
      match jGet data "errors" with
      | some errs => Except.error (FetchError.graphqlErrors errs)
      | none =>
        match dataSubscriptions data with
        | none => Except.error (FetchError.missingField "data.subscriptions")
        | some result =>
          match jGet result "errorCodes" with
          | some codes => Except.error (FetchError.subscriptionError codes)
          | none =>
            match jGet result "subscriptions" with
            | some (JValue.arr items) => mapExcept parseSubscription items
            | _ => Except.error (FetchError.missingField "subscriptions")

/-- Python `sub.folder or "Uncategorized"`: the `or` falls through to the
default on `None` and on the empty string (both falsy). -/
def folderKey (sub : Subscription) : String :=
  match sub.folder with
  | none => "Uncategorized"
  | some f => if f = "" then "Uncategorized" else f

/-- One step of the grouping loop in `export_to_opml`: append `sub` to
the bucket of `key`, creating the bucket at the end on first sight
(Python dicts preserve insertion order). -/
def addToFolders (fs : List (String × List Subscription)) (key : String)
    (sub : Subscription) : List (String × List Subscription) :=
  match fs with
  | [] => [(key, [sub])]
  | (k, bucket) :: rest =>
    if k = key then (k, bucket ++ [sub]) :: rest
    else (k, bucket) :: addToFolders rest key sub

/-- The `folders` dict built by `export_to_opml`, as an insertion-ordered
association list. -/
def groupByFolder (subs : List Subscription) :
    List (String × List Subscription) :=
  subs.foldl (fun fs sub => addToFolders fs (folderKey sub) sub) []

/-- The distinct elements of a list in first-seen order. -/
def firstSeen (l : List String) : List String :=
  l.foldl (fun acc x => if x ∈ acc then acc else acc ++ [x]) []

/-- First-match lookup in the bucket list (`folders[key]`). -/
def lookupBucket :
    List (String × List Subscription) → String → List Subscription
  | [], _ => []
  | (k, bucket) :: rest, key =>
    if k = key then bucket else lookupBucket rest key

/-- The fixed text of a leaf outline line up to the feed name. -/
def leafPat : String := "      <outline type=\"rss\" text=\""

/-- The leaf outline line for one feed, built by the source's f-string
with the name interpolated into the text and title attributes and the
URL into the xmlUrl attribute, all verbatim with no XML escaping. -/
def leafLine (name url : String) : String :=
  leafPat ++ name ++ "\" title=\"" ++ name ++ "\" xmlUrl=\"" ++ url ++ "\"/>\n"

/-- The opening folder outline line (folder name unescaped). -/
def openLine (folder : String) : String :=
  "    <outline text=\"" ++ folder ++ "\" title=\"" ++ folder ++ "\">\n"

def closeLine : String := "    </outline>\n"

/-- The leaf lines of one bucket: one line per subscription whose `url`
is truthy (`if sub.url:`). -/
def leafLines (bucket : List Subscription) : List String :=
  bucket.filterMap (fun sub =>
    match sub.url with
    | some u => if u = "" then none else some (leafLine sub.name u)
    | none => none)

/-- The lines one folder contributes: a wrapping folder outline element
around the leaves, omitted exactly for `"Uncategorized"`. -/
def folderBlock (folder : String) (bucket : List Subscription) :
    List String :=
  (if folder = "Uncategorized" then [] else [openLine folder]) ++
    leafLines bucket ++
    (if folder = "Uncategorized" then [] else [closeLine])

def titleLine (today : String) : String :=
  "    <title>Omnivore RSS Subscriptions Export - " ++ today ++ "</title>\n"

def headerLines (today : String) : List String :=
  ["<?xml version=\"1.0\" encoding=\"UTF-8\"?>\n",
   "<opml version=\"2.0\">\n",
   "  <head>\n",
   titleLine today,
   "  </head>\n",
   "  <body>\n"]

def footerLines : List String :=
  ["  </body>\n", "</opml>"]

/-- The successive pieces `export_to_opml` appends to `opml`, in order;
`today` stands for `datetime.now().strftime("%Y-%m-%d")`. -/
def opmlLines (subs : List Subscription) (today : String) : List String :=
  headerLines today ++
    ((groupByFolder subs).map (fun p => folderBlock p.1 p.2)).flatten ++
    footerLines

/-- Concatenation of the appended pieces. -/
def concatAll : List String → String
  | [] => ""
  | s :: rest => s ++ concatAll rest

/-- Model of `OmnivoreClient.export_to_opml`, as the produced OPML document string
(the file write is outside the model). -/
def export_to_opml (subs : List Subscription) (today : String) : String :=
  concatAll (opmlLines subs today)

/-- Python truthiness of `sub.url` (the serializer's inclusion test). -/
def hasUrl (sub : Subscription) : Bool := !(pyFalsy sub.url)

/-- `pat` is a prefix of `s` (as character lists). -/
def startsWith : List Char → List Char → Bool
  | [], _ => true
  | _ :: _, [] => false
  | p :: ps, c :: cs => p == c && startsWith ps cs

/-- A produced line is a leaf outline line iff it starts with the fixed
leaf text (folder, title, header and footer lines all differ from it
within their fixed characters). -/
def isLeafLine (l : String) : Bool :=
  startsWith leafPat.data l.data

def occursInAux (pat : List Char) : List Char → Bool
  | [] => pat.isEmpty
  | c :: cs => startsWith pat (c :: cs) || occursInAux pat cs

/-- `pat` occurs as a contiguous substring of `s`. -/
def occursIn (pat s : String) : Bool :=
  occursInAux pat.data s.data

/-- The missing-variable list `main` accumulates, in source order; an
environment value is missing when `not value` holds in Python, i.e. when
it is absent or the empty string. -/
def missingVars (token host graphql_path : Option String) : List String :=
  (if pyFalsy token then ["OMNIVORE_API_TOKEN"] else []) ++
    (if pyFalsy host then ["OMNIVORE_HOST"] else []) ++
    (if pyFalsy graphql_path then ["OMNIVORE_GRAPH_QL_PATH"] else [])

/-- The validation step of `main`: raise a `ValueError` naming all the
missing variables in one message, else pass the three values through
unchanged (no defaults). -/
def configCheck (token host graphql_path : Option String) :
    Except String (String × String × String) :=
  match missingVars token host graphql_path with
  | [] => Except.ok (token.getD "", host.getD "", graphql_path.getD "")
  | missing =>
    Except.error
      ("Missing required environment variables: " ++ joinWith ", " missing)

/-- Outcome of one run of `main` (console output aside). -/
inductive RunResult where
  | configError (msg : String)
  | fetchError (e : FetchError)
  | success (opml : String)

/-- Model of `main`, parameterized over the environment values, the
`--exclude-unfetched` flag, the HTTP response its single network call
would receive, and today's date string: config validation, fetch,
optional filter, serialization. -/
def runMain (token host graphql_path : Option String)
    (excludeUnfetched : Bool) (resp : HttpResponse) (today : String) :
    RunResult :=
  match configCheck token host graphql_path with
  | Except.error msg => RunResult.configError msg
  | Except.ok _ =>
    match get_subscriptions resp with
    | Except.error e => RunResult.fetchError e
    | Except.ok subs =>
      let subs := if excludeUnfetched then filterUnfetched subs else subs
      RunResult.success (export_to_opml subs today)

/-- The invariant claim C8 asserts for one timestamp field: the field is
absent exactly when the source value is absent or falsy, and otherwise
holds the instant parsed from the source string after the
`Z → +00:00` replacement. -/
def tsFromSource (j : JValue) (key : String) (field : Option Int) : Prop :=
  (field = none ∧ getTruthyStr j key = none) ∨
  (∃ s t, getTruthyStr j key = some s ∧ fromIso (replaceZ s) = some t ∧
    field = some t)

/-- A concrete subscription item of a GraphQL response (spec §8). -/
def itemW : JValue :=
  JValue.obj
    [("name", JValue.str "Tech News"),
     ("url", JValue.str "https://example.com/feed"),
     ("folder", JValue.str "News"),
     ("createdAt", JValue.str "2024-01-01T00:00:00Z"),
     ("lastFetchedAt", JValue.str "2024-01-01T00:00:05Z")]

/-- A concrete successful response holding `itemW`. -/
def respW : HttpResponse :=
  { statusCode := 200
    text := ""
    body := some (JValue.obj
      [("data", JValue.obj
        [("subscriptions", JValue.obj
          [("subscriptions", JValue.arr [itemW])])])]) }

/-- The record the mapping step produces from `itemW`
(`2024-01-01T00:00:00Z` is `1704067200` seconds after the epoch). -/
def subW : Subscription :=
  { name := "Tech News"
    url := some "https://example.com/feed"
    folder := some "News"
    created_at := some 1704067200000000
    last_fetched_at := some 1704067205000000 }

/-- A concrete 404 response. -/
def resp404 : HttpResponse :=
  { statusCode := 404, text := "Not Found", body := none }

/-- A well-formed body with an empty subscription list. -/
def body304 : JValue :=
  JValue.obj
    [("data", JValue.obj
      [("subscriptions", JValue.obj [("subscriptions", JValue.arr [])])])]

/-- A non-2xx response (304) that `raise_for_status` does not raise on. -/
def resp304 : HttpResponse :=
  { statusCode := 304, text := "", body := some body304 }

/-- A body carrying both a top-level `errors` field and a nested
`errorCodes` field, to observe which check wins. -/
def bodyErr : JValue :=
  JValue.obj
    [("errors", JValue.arr [JValue.str "boom"]),
     ("data", JValue.obj
       [("subscriptions", JValue.obj
         [("errorCodes", JValue.arr [JValue.str "UNAUTHORIZED"])])])]

/-- A 200 response holding `bodyErr`. -/
def respErr : HttpResponse :=
  { statusCode := 200, text := "", body := some bodyErr }

/-- Subscriptions in folders `A`, absent, `A`, `B` (spec §8's grouping
example, first-seen order `A, Uncategorized, B`). -/
def exSubsC2 : List Subscription :=
  [{ name := "a1", folder := some "A" },
   { name := "u1" },
   { name := "a2", folder := some "A" },
   { name := "b1", folder := some "B" }]

/-- A subscription with a reserved XML character in its name and no URL. -/
def subNoUrl : Subscription := { name := "a&b" }

theorem dropped_iff (sub : Subscription) :
    droppedByFilter sub = true ↔
      (sub.last_fetched_at = none ∨
        ∃ ca lf, sub.created_at = some ca ∧ sub.last_fetched_at = some lf ∧
          (lf - ca).natAbs < 60 * 1000000) := by
  unfold droppedByFilter
  cases hca : sub.created_at <;> cases hlf : sub.last_fetched_at <;>
    simp [hca, hlf]

/-- Claim C1: under `--exclude-unfetched`, a subscription of the input is
dropped from the output iff its `last_fetched_at` is absent, or both
`created_at` and `last_fetched_at` are present with absolute difference
under 60 seconds (`60 * 1000000` microseconds); in particular a
subscription with `created_at = last_fetched_at` is always dropped. -/
theorem c1_exclude_unfetched_drop_iff (subs : List Subscription)
    (sub : Subscription) (h : sub ∈ subs) :
    (sub ∉ filterUnfetched subs ↔
      (sub.last_fetched_at = none ∨
        ∃ ca lf, sub.created_at = some ca ∧ sub.last_fetched_at = some lf ∧
          (lf - ca).natAbs < 60 * 1000000)) ∧
    (∀ t : Int, sub.created_at = some t → sub.last_fetched_at = some t →
      sub ∉ filterUnfetched subs) := by
  have hmem : sub ∉ filterUnfetched subs ↔ droppedByFilter sub = true := by
    simp [filterUnfetched, List.mem_filter, h]
  constructor
  · rw [hmem, dropped_iff]
  · intro t hc hl
    rw [hmem, dropped_iff]
    exact Or.inr ⟨t, t, hc, hl, by simp⟩

/-- Witness for C1: a concrete subscription created and "fetched" at the
same instant is dropped by the filter. -/
theorem c1_witness :
    ({ name := "w", created_at := some 5, last_fetched_at := some 5 } :
        Subscription) ∉
      filterUnfetched
        [{ name := "w", created_at := some 5, last_fetched_at := some 5 }] :=
  (c1_exclude_unfetched_drop_iff
      [{ name := "w", created_at := some 5, last_fetched_at := some 5 }]
      { name := "w", created_at := some 5, last_fetched_at := some 5 }
      (List.mem_singleton.mpr rfl)).2 5 rfl rfl

/-- Claim C9: the `--exclude-unfetched` filter is idempotent. -/
theorem c9_filter_idempotent (subs : List Subscription) :
    filterUnfetched (filterUnfetched subs) = filterUnfetched subs := by
  simp [filterUnfetched, List.filter_filter]

/-- Claim C10: the filter's output is a subsequence of its input: every
surviving record is an unchanged record of the input, relative order is
kept, and nothing is duplicated or introduced. -/
theorem c10_filter_sublist (subs : List Subscription) :
    List.Sublist (filterUnfetched subs) subs :=
  List.filter_sublist subs

theorem parseTimestampField_ok (j : JValue) (key : String) (o : Option Int)
    (h : parseTimestampField j key = Except.ok o) : tsFromSource j key o := by
  unfold parseTimestampField at h
  cases hg : getTruthyStr j key with
  | none =>
    rw [hg] at h
    dsimp only at h
    injection h with h
    exact Or.inl ⟨h.symm, hg⟩
  | some s =>
    rw [hg] at h
    dsimp only at h
    cases hf : fromIso (replaceZ s) with
    | none => rw [hf] at h; exact absurd h (by simp)
    | some t =>
      rw [hf] at h
      injection h with h
      exact Or.inr ⟨s, t, hg, hf, h.symm⟩

theorem parseSubscription_fields (j : JValue) (sub : Subscription)
    (h : parseSubscription j = Except.ok sub) :
    parseTimestampField j "createdAt" = Except.ok sub.created_at ∧
    parseTimestampField j "lastFetchedAt" = Except.ok sub.last_fetched_at ∧
    parseTimestampField j "refreshedAt" = Except.ok sub.refreshed_at ∧
    parseTimestampField j "failedAt" = Except.ok sub.failed_at := by
  unfold parseSubscription at h
  split at h
  · rename_i ca lf ra fa hca hlf hra hfa
    split at h
    · rename_i name hname
      injection h with h
      subst h
      exact ⟨hca, hlf, hra, hfa⟩
    · exact absurd h (by simp)
  all_goals exact absurd h (by simp)

theorem mapExcept_mem_ok {α β ε : Type} {f : α → Except ε β} :
    ∀ (l : List α) (ys : List β), mapExcept f l = Except.ok ys →
      ∀ y ∈ ys, ∃ x ∈ l, f x = Except.ok y := by
  intro l
  induction l with
  | nil =>
    intro ys h y hy
    rw [mapExcept] at h
    injection h with h
    subst h
    simp at hy
  | cons a as ih =>
    intro ys h y hy
    rw [mapExcept] at h
    cases hfa : f a with
    | error e => rw [hfa] at h; exact absurd h (by simp)
    | ok b =>
      rw [hfa] at h
      cases hm : mapExcept f as with
      | error e => rw [hm] at h; exact absurd h (by simp)
      | ok bs =>
        rw [hm] at h
        injection h with h
        subst h
        rcases List.mem_cons.mp hy with hy | hy
        · exact ⟨a, List.mem_cons_self a as, hy ▸ hfa⟩
        · obtain ⟨x, hx, hfx⟩ := ih bs hm y hy
          exact ⟨x, List.mem_cons_of_mem a hx, hfx⟩

theorem get_subscriptions_ok_items (resp : HttpResponse)
    (subs : List Subscription) (h : get_subscriptions resp = Except.ok subs) :
    ∃ items : List JValue, mapExcept parseSubscription items = Except.ok subs := by
  rw [get_subscriptions] at h
  split at h
  · exact absurd h (by simp)
  · split at h
    · exact absurd h (by simp)
    · split at h
      · exact absurd h (by simp)
      · split at h
        · exact absurd h (by simp)
        · split at h
          · exact absurd h (by simp)
          · split at h
            · exact ⟨_, h⟩
            · exact absurd h (by simp)

/-- Claim C8: whenever the fetch succeeds, every produced `Subscription`
record comes from a source item via the mapping step, and each of its
four timestamp fields is either absent (source value absent or falsy) or
the structured instant parsed from the source ISO-8601 string with the
trailing `Z` rewritten to the UTC offset `+00:00`; records carry no raw
timestamp strings. -/
theorem c8_timestamps_parsed (resp : HttpResponse) (subs : List Subscription)
    (h : get_subscriptions resp = Except.ok subs) :
    ∀ sub ∈ subs, ∃ j : JValue, parseSubscription j = Except.ok sub ∧
      tsFromSource j "createdAt" sub.created_at ∧
      tsFromSource j "lastFetchedAt" sub.last_fetched_at ∧
      tsFromSource j "refreshedAt" sub.refreshed_at ∧
      tsFromSource j "failedAt" sub.failed_at := by
  intro sub hsub
  obtain ⟨items, hm⟩ := get_subscriptions_ok_items resp subs h
  obtain ⟨j, _, hj⟩ := mapExcept_mem_ok items subs hm sub hsub
  obtain ⟨h1, h2, h3, h4⟩ := parseSubscription_fields j sub hj
  exact ⟨j, hj, parseTimestampField_ok j _ _ h1, parseTimestampField_ok j _ _ h2,
    parseTimestampField_ok j _ _ h3, parseTimestampField_ok j _ _ h4⟩

/-- Witness for C8 at a concrete response: the fetch succeeds on `respW`
producing `subW`, whose timestamps satisfy the parsed-instant invariant. -/
theorem c8_witness :
    get_subscriptions respW = Except.ok [subW] ∧
    ∀ sub ∈ [subW], ∃ j : JValue, parseSubscription j = Except.ok sub ∧
      tsFromSource j "createdAt" sub.created_at ∧
      tsFromSource j "lastFetchedAt" sub.last_fetched_at ∧
      tsFromSource j "refreshedAt" sub.refreshed_at ∧
      tsFromSource j "failedAt" sub.failed_at :=
  ⟨rfl, c8_timestamps_parsed respW [subW] rfl⟩

/-- Claim C5 (amended): for every HTTP response whose status code lies in
400–599 — exactly the statuses `raise_for_status` raises on — the fetch
fails with a transport error carrying the status code and the
500-character excerpt of the response body, and no subscription list is
returned. -/
theorem c5_http_error_transport (resp : HttpResponse)
    (h1 : 400 ≤ resp.statusCode) (h2 : resp.statusCode < 600) :
    get_subscriptions resp =
        Except.error
          (FetchError.transport resp.statusCode (pyTake resp.text 500)) ∧
    ∀ subs : List Subscription, get_subscriptions resp ≠ Except.ok subs := by
  have hr : raisesForStatus resp.statusCode = true := by
    simp [raisesForStatus, h1, h2]
  have hmain : get_subscriptions resp =
      Except.error
        (FetchError.transport resp.statusCode (pyTake resp.text 500)) := by
    rw [get_subscriptions, if_pos (by simp [hr])]
  exact ⟨hmain, fun subs hc => by rw [hmain] at hc; exact Except.noConfusion hc⟩

/-- Witness for C5 (amended) at a concrete 404 response. -/
theorem c5_witness :
    get_subscriptions resp404 =
      Except.error (FetchError.transport 404 "Not Found") :=
  (c5_http_error_transport resp404 (by decide) (by decide)).1

/-- Counterexample to claim C5 as stated: 304 is a non-2xx status, but
`raise_for_status` does not raise on it, and with a well-formed body the
fetch returns a subscription list instead of failing with a transport
error. -/
theorem c5_counterexample : get_subscriptions resp304 = Except.ok [] := rfl

/-- Claim C6: after a status `raise_for_status` does not raise on and a
JSON-decoded body, the checks run in a fixed order: a top-level `errors`
field fails the fetch with the GraphQL error carrying the server error
list (whatever else the body holds); otherwise an `errorCodes` field in
`data.subscriptions` fails it with the domain error carrying the codes;
subscription records are produced only when neither field is present. -/
theorem c6_error_check_order (resp : HttpResponse) (data : JValue)
    (hs : raisesForStatus resp.statusCode = false)
    (hb : resp.body = some data) :
    (∀ errs, jGet data "errors" = some errs →
      get_subscriptions resp = Except.error (FetchError.graphqlErrors errs)) ∧
    (∀ result codes, jGet data "errors" = none →
      dataSubscriptions data = some result →
      jGet result "errorCodes" = some codes →
      get_subscriptions resp =
        Except.error (FetchError.subscriptionError codes)) ∧
    (∀ subs, get_subscriptions resp = Except.ok subs →
      jGet data "errors" = none ∧
      ∃ result, dataSubscriptions data = some result ∧
        jGet result "errorCodes" = none) := by
  refine ⟨?_, ?_, ?_⟩
  · intro errs he
    rw [get_subscriptions, if_neg (by simp [hs]), hb]
    dsimp only
    rw [he]
  · intro result codes he hd hc
    rw [get_subscriptions, if_neg (by simp [hs]), hb]
    dsimp only
    rw [he, hd]
    dsimp only
    rw [hc]
  · intro subs hok
    rw [get_subscriptions, if_neg (by simp [hs]), hb] at hok
    dsimp only at hok
    cases he : jGet data "errors" with
    | some errs => rw [he] at hok; exact absurd hok (by simp)
    | none =>
      rw [he] at hok
      dsimp only at hok
      cases hd : dataSubscriptions data with
      | none => rw [hd] at hok; exact absurd hok (by simp)
      | some result =>
        rw [hd] at hok
        dsimp only at hok
        cases hc : jGet result "errorCodes" with
        | some codes => rw [hc] at hok; exact absurd hok (by simp)
        | none => exact ⟨rfl, result, rfl, hc⟩

/-- Witness for C6 at a concrete response whose body carries both a
top-level `errors` field and a nested `errorCodes` field: the GraphQL
error check wins. -/
theorem c6_witness :
    get_subscriptions respErr =
      Except.error
        (FetchError.graphqlErrors (JValue.arr [JValue.str "boom"])) :=
  (c6_error_check_order respErr bodyErr (by decide) rfl).1
    (JValue.arr [JValue.str "boom"]) rfl

theorem keys_addToFolders (fs : List (String × List Subscription))
    (key : String) (sub : Subscription) :
    (addToFolders fs key sub).map Prod.fst =
      if key ∈ fs.map Prod.fst then fs.map Prod.fst
      else fs.map Prod.fst ++ [key] := by
  induction fs with
  | nil => simp [addToFolders]
  | cons p rest ih =>
    obtain ⟨k, bucket⟩ := p
    by_cases hk : k = key
    · subst hk
      simp [addToFolders]
    · simp only [addToFolders, if_neg hk, List.map_cons]
      rw [ih]
      by_cases hmem : key ∈ rest.map Prod.fst
      · simp [hmem, hk, Ne.symm hk]
      · simp [hmem, hk, Ne.symm hk]

theorem lookupBucket_addToFolders (fs : List (String × List Subscription))
    (key : String) (sub : Subscription) (k : String) :
    lookupBucket (addToFolders fs key sub) k =
      if k = key then lookupBucket fs k ++ [sub] else lookupBucket fs k := by
  induction fs with
  | nil =>
    by_cases hk : k = key
    · subst hk; simp [addToFolders, lookupBucket]
    · have hk2 : ¬ key = k := fun h => hk h.symm
      simp [addToFolders, lookupBucket, hk, hk2]
  | cons p rest ih =>
    obtain ⟨k2, bucket⟩ := p
    by_cases h2 : k2 = key
    · subst h2
      by_cases hk : k2 = k
      · subst hk
        simp [addToFolders, lookupBucket]
      · have hk2 : ¬ k = k2 := fun h => hk h.symm
        simp [addToFolders, lookupBucket, hk, hk2]
    · by_cases hk : k2 = k
      · subst hk
        have hk2 : ¬ k2 = key := h2
        simp [addToFolders, lookupBucket, h2, hk2]
      · simp [addToFolders, lookupBucket, h2, hk, ih]

theorem groupByFolder_concat (subs : List Subscription) (s : Subscription) :
    groupByFolder (subs ++ [s]) =
      addToFolders (groupByFolder subs) (folderKey s) s := by
  unfold groupByFolder
  rw [List.foldl_append]
  rfl

theorem lookupBucket_groupByFolder (subs : List Subscription) (k : String) :
    lookupBucket (groupByFolder subs) k =
      subs.filter (fun s => folderKey s == k) := by
  induction subs using List.reverseRecOn with
  | nil => rfl
  | append_singleton subs s ih =>
    rw [groupByFolder_concat, lookupBucket_addToFolders, List.filter_append]
    by_cases hk : k = folderKey s
    · subst hk
      simp [ih, List.filter]
    · have : (folderKey s == k) = false := by
        simp [Ne.symm hk]
      simp [hk, ih, List.filter, this]

theorem mem_firstSeen_aux (l : List String) :
    ∀ (acc : List String) (x : String),
      (x ∈ l.foldl (fun acc x => if x ∈ acc then acc else acc ++ [x]) acc ↔
        x ∈ acc ∨ x ∈ l) := by
  induction l with
  | nil => simp
  | cons a t ih =>
    intro acc x
    simp only [List.foldl_cons]
    by_cases ha : a ∈ acc
    · rw [if_pos ha, ih]
      constructor
      · rintro (h | h)
        · exact Or.inl h
        · exact Or.inr (List.mem_cons_of_mem a h)
      · rintro (h | h)
        · exact Or.inl h
        · rcases List.mem_cons.mp h with rfl | h
          · exact Or.inl ha
          · exact Or.inr h
    · rw [if_neg ha, ih]
      constructor
      · rintro (h | h)
        · rcases List.mem_append.mp h with h | h
          · exact Or.inl h
          · exact Or.inr
              (by simpa using List.mem_cons.mpr (Or.inl (List.mem_singleton.mp h)))
        · exact Or.inr (List.mem_cons_of_mem a h)
      · rintro (h | h)
        · exact Or.inl (List.mem_append.mpr (Or.inl h))
        · rcases List.mem_cons.mp h with rfl | h
          · exact Or.inl (List.mem_append.mpr (Or.inr (List.mem_singleton.mpr rfl)))
          · exact Or.inr h

theorem mem_firstSeen (l : List String) (x : String) :
    x ∈ firstSeen l ↔ x ∈ l := by
  rw [firstSeen, mem_firstSeen_aux]
  simp

theorem firstSeen_concat (l : List String) (x : String) :
    firstSeen (l ++ [x]) =
      if x ∈ firstSeen l then firstSeen l else firstSeen l ++ [x] := by
  unfold firstSeen
  rw [List.foldl_append]
  rfl

theorem keys_groupByFolder (subs : List Subscription) :
    (groupByFolder subs).map Prod.fst = firstSeen (subs.map folderKey) := by
  induction subs using List.reverseRecOn with
  | nil => rfl
  | append_singleton subs s ih =>
    rw [groupByFolder_concat, keys_addToFolders, List.map_append]
    simp only [List.map_cons, List.map_nil]
    rw [firstSeen_concat, ih]

theorem nodup_keys_groupByFolder (subs : List Subscription) :
    ((groupByFolder subs).map Prod.fst).Nodup := by
  induction subs using List.reverseRecOn with
  | nil => exact List.nodup_nil
  | append_singleton subs s ih =>
    rw [groupByFolder_concat, keys_addToFolders]
    by_cases h : folderKey s ∈ (groupByFolder subs).map Prod.fst
    · rw [if_pos h]; exact ih
    · rw [if_neg h]
      rw [List.nodup_append]
      exact ⟨ih, List.nodup_singleton _, by simpa using h⟩

theorem bucket_eq_lookup (fs : List (String × List Subscription))
    (hnd : (fs.map Prod.fst).Nodup) (k : String) (b : List Subscription)
    (h : (k, b) ∈ fs) : b = lookupBucket fs k := by
  induction fs with
  | nil => simp at h
  | cons p rest ih =>
    obtain ⟨k2, b2⟩ := p
    rw [List.map_cons, List.nodup_cons] at hnd
    rcases List.mem_cons.mp h with heq | hmem
    · injection heq with h1 h2
      subst h1; subst h2
      simp [lookupBucket]
    · have hk : k2 ≠ k := by
        intro hcontra
        subst hcontra
        exact hnd.1 (List.mem_map.mpr ⟨(k2, b), hmem, rfl⟩)
      simp [lookupBucket, hk, ih hnd.2 hmem]

theorem mem_of_key_mem (fs : List (String × List Subscription)) (k : String)
    (h : k ∈ fs.map Prod.fst) : (k, lookupBucket fs k) ∈ fs := by
  induction fs with
  | nil => simp at h
  | cons p rest ih =>
    obtain ⟨k2, b2⟩ := p
    by_cases hk : k2 = k
    · subst hk
      simp [lookupBucket]
    · rw [List.map_cons] at h
      rcases List.mem_cons.mp h with heq | hmem
      · exact absurd heq.symm hk
      · simp only [lookupBucket, if_neg hk]
        exact List.mem_cons_of_mem _ (ih hmem)

/-- Claim C2: grouping is a deterministic partition — the folder keys
appear in first-seen order, each bucket holds exactly the subscriptions
of its key in original order, an absent or empty folder maps to the
reserved `"Uncategorized"` key, and the emitted block wraps every bucket
in a folder outline element except `"Uncategorized"`. -/
theorem c2_grouping_partition (subs : List Subscription) :
    ((groupByFolder subs).map Prod.fst = firstSeen (subs.map folderKey)) ∧
    (∀ p ∈ groupByFolder subs,
      p.2 = subs.filter (fun s => folderKey s == p.1)) ∧
    (∀ sub : Subscription, (sub.folder = none ∨ sub.folder = some "") →
      folderKey sub = "Uncategorized") ∧
    (∀ bucket, folderBlock "Uncategorized" bucket = leafLines bucket) ∧
    (∀ folder bucket, folder ≠ "Uncategorized" →
      folderBlock folder bucket =
        openLine folder :: (leafLines bucket ++ [closeLine])) := by
  refine ⟨keys_groupByFolder subs, ?_, ?_, ?_, ?_⟩
  · intro p hp
    obtain ⟨k, b⟩ := p
    rw [bucket_eq_lookup (groupByFolder subs) (nodup_keys_groupByFolder subs)
      k b hp]
    exact lookupBucket_groupByFolder subs k
  · intro sub h
    rcases h with h | h <;> simp [folderKey, h]
  · intro bucket; simp [folderBlock]
  · intro folder bucket h; simp [folderBlock, h]

/-- Witness for C2: a folderless subscription lands in `"Uncategorized"`,
and the spec's `[A, absent, A, B]` example groups to folder order
`A, Uncategorized, B`. -/
theorem c2_witness :
    folderKey { name := "u1" } = "Uncategorized" ∧
    (groupByFolder exSubsC2).map Prod.fst = ["A", "Uncategorized", "B"] := by
  constructor
  · exact (c2_grouping_partition exSubsC2).2.2.1 { name := "u1" } (Or.inl rfl)
  · rw [(c2_grouping_partition exSubsC2).1]
    rfl

theorem str_data_append (a b : String) : (a ++ b).data = a.data ++ b.data := by
  cases a; cases b; rfl

theorem str_empty_append (a : String) : "" ++ a = a := by
  cases a; rfl

theorem str_append_assoc (a b c : String) : a ++ b ++ c = a ++ (b ++ c) := by
  cases a; cases b; cases c
  show String.mk _ = String.mk _
  rw [List.append_assoc]

theorem startsWith_append_self (l t : List Char) :
    startsWith l (l ++ t) = true := by
  induction l with
  | nil => rfl
  | cons c cs ih => simp [startsWith, ih]

theorem isLeafLine_leafLine (name url : String) :
    isLeafLine (leafLine name url) = true := by
  unfold isLeafLine leafLine
  simp only [str_data_append, List.append_assoc]
  exact startsWith_append_self _ _

theorem isLeafLine_openLine (folder : String) :
    isLeafLine (openLine folder) = false := by
  unfold isLeafLine openLine
  simp only [str_data_append, List.append_assoc]
  rfl

theorem isLeafLine_titleLine (today : String) :
    isLeafLine (titleLine today) = false := by
  unfold isLeafLine titleLine
  simp only [str_data_append, List.append_assoc]
  rfl

theorem leafLines_cons (sub : Subscription) (t : List Subscription) :
    leafLines (sub :: t) =
      (match sub.url with
       | some u => if u = "" then [] else [leafLine sub.name u]
       | none => []) ++ leafLines t := by
  rw [leafLines, List.filterMap_cons]
  cases hu : sub.url with
  | none => simp [leafLines]
  | some u =>
    by_cases h0 : u = "" <;> simp [h0, leafLines]

theorem length_leafLines (bucket : List Subscription) :
    (leafLines bucket).length = List.countP hasUrl bucket := by
  induction bucket with
  | nil => rfl
  | cons sub t ih =>
    rw [leafLines_cons, List.length_append, ih, List.countP_cons]
    cases hu : sub.url with
    | none => simp [hasUrl, pyFalsy, hu]
    | some u =>
      by_cases h0 : u = ""
      · simp [hasUrl, pyFalsy, hu, h0]
      · simp [hasUrl, pyFalsy, hu, h0]
        omega

theorem countP_isLeafLine_leafLines (bucket : List Subscription) :
    List.countP isLeafLine (leafLines bucket) = (leafLines bucket).length := by
  rw [List.countP_eq_length]
  intro l hl
  obtain ⟨sub, hsub, hline⟩ := List.mem_filterMap.mp hl
  cases hu : sub.url with
  | none => rw [hu] at hline; exact absurd hline (by simp)
  | some u =>
    rw [hu] at hline
    dsimp only at hline
    by_cases h0 : u = ""
    · rw [if_pos h0] at hline; exact absurd hline (by simp)
    · rw [if_neg h0] at hline
      injection hline with hline
      rw [← hline]
      exact isLeafLine_leafLine sub.name u

theorem countP_isLeafLine_folderBlock (folder : String)
    (bucket : List Subscription) :
    List.countP isLeafLine (folderBlock folder bucket) =
      List.countP hasUrl bucket := by
  rw [folderBlock, List.countP_append, List.countP_append,
    countP_isLeafLine_leafLines, length_leafLines]
  by_cases h : folder = "Uncategorized"
  · simp [h]
  · have hc : isLeafLine closeLine = false := rfl
    simp [h, List.countP_cons, isLeafLine_openLine, hc]

theorem countP_flattenStrs (p : String → Bool) (L : List (List String)) :
    List.countP p L.flatten = (L.map (List.countP p)).sum := by
  induction L with
  | nil => rfl
  | cons a t ih => simp [List.countP_append, ih]

theorem sum_countP_addToFolders (q : Subscription → Bool)
    (fs : List (String × List Subscription)) (key : String)
    (sub : Subscription) :
    ((addToFolders fs key sub).map (fun p => List.countP q p.2)).sum =
      (fs.map (fun p => List.countP q p.2)).sum +
        (if q sub then 1 else 0) := by
  induction fs with
  | nil => simp [addToFolders, List.countP_cons]
  | cons p rest ih =>
    obtain ⟨k, b⟩ := p
    by_cases hk : k = key
    · subst hk
      simp [addToFolders, List.countP_append, List.countP_cons]
      omega
    · simp [addToFolders, hk, ih]
      omega

theorem sum_countP_groupByFolder (q : Subscription → Bool)
    (subs : List Subscription) :
    ((groupByFolder subs).map (fun p => List.countP q p.2)).sum =
      List.countP q subs := by
  induction subs using List.reverseRecOn with
  | nil => rfl
  | append_singleton subs s ih =>
    rw [groupByFolder_concat, sum_countP_addToFolders, ih,
      List.countP_append]
    simp [List.countP_cons]

theorem countP_isLeafLine_header (today : String) :
    List.countP isLeafLine (headerLines today) = 0 := by
  have h1 : isLeafLine "<?xml version=\"1.0\" encoding=\"UTF-8\"?>\n" = false := rfl
  have h2 : isLeafLine "<opml version=\"2.0\">\n" = false := rfl
  have h3 : isLeafLine "  <head>\n" = false := rfl
  have h5 : isLeafLine "  </head>\n" = false := rfl
  have h6 : isLeafLine "  <body>\n" = false := rfl
  rw [headerLines]
  simp [List.countP_cons, h1, h2, h3, h5, h6, isLeafLine_titleLine]

/-- Claim C7: the document is the concatenation of the emitted lines, and
those lines contain exactly one leaf outline line per subscription whose
`url` is present and non-empty; subscriptions with an absent or empty
`url` contribute no leaf line. -/
theorem c7_opml_leaf_count (subs : List Subscription) (today : String) :
    export_to_opml subs today = concatAll (opmlLines subs today) ∧
    List.countP isLeafLine (opmlLines subs today) =
      List.countP hasUrl subs := by
  refine ⟨rfl, ?_⟩
  have hfoot : List.countP isLeafLine footerLines = 0 := rfl
  rw [opmlLines, List.countP_append, List.countP_append,
    countP_isLeafLine_header, hfoot, countP_flattenStrs]
  have hmap : ((groupByFolder subs).map (fun p => folderBlock p.1 p.2)).map
        (List.countP isLeafLine) =
      (groupByFolder subs).map (fun p => List.countP hasUrl p.2) := by
    rw [List.map_map]
    exact List.map_congr_left
      (fun p _ => countP_isLeafLine_folderBlock p.1 p.2)
  rw [hmap, sum_countP_groupByFolder]
  omega

theorem concatAll_mem_decomp :
    ∀ (l : List String) (x : String), x ∈ l →
      ∃ p q, concatAll l = p ++ x ++ q := by
  intro l
  induction l with
  | nil => intro x hx; simp at hx
  | cons a t ih =>
    intro x hx
    rcases List.mem_cons.mp hx with rfl | hx
    · refine ⟨"", concatAll t, ?_⟩
      rw [concatAll, str_empty_append]
    · obtain ⟨p, q, hp⟩ := ih x hx
      refine ⟨a ++ p, q, ?_⟩
      rw [concatAll, hp, str_append_assoc, str_append_assoc,
        str_append_assoc]

/-- Claim C3 (amended): for every subscription with a present, non-empty
`url`, the serializer interpolates its name and URL into the document
character-for-character unmodified — the document contains the leaf line
with the raw name and URL and no escaping of reserved XML characters.
(Subscriptions without a URL are omitted wholesale, so the claim's
"every subscription" is restricted to those with a URL.) -/
theorem c3_verbatim_interpolation (subs : List Subscription) (today : String)
    (sub : Subscription) (h : sub ∈ subs) (u : String)
    (hu : sub.url = some u) (hne : u ≠ "") :
    ∃ p q, export_to_opml subs today =
      p ++ (leafPat ++ sub.name ++ "\" title=\"" ++ sub.name ++
        "\" xmlUrl=\"" ++ u ++ "\"/>\n") ++ q := by
  have hkey : folderKey sub ∈ (groupByFolder subs).map Prod.fst := by
    rw [keys_groupByFolder, mem_firstSeen]
    exact List.mem_map.mpr ⟨sub, h, rfl⟩
  have hbmem :
      (folderKey sub, lookupBucket (groupByFolder subs) (folderKey sub)) ∈
        groupByFolder subs :=
    mem_of_key_mem _ _ hkey
  have hsubbucket :
      sub ∈ lookupBucket (groupByFolder subs) (folderKey sub) := by
    rw [lookupBucket_groupByFolder]
    exact List.mem_filter.mpr ⟨h, by simp⟩
  have hlineleaf : leafLine sub.name u ∈
      leafLines (lookupBucket (groupByFolder subs) (folderKey sub)) :=
    List.mem_filterMap.mpr ⟨sub, hsubbucket, by rw [hu]; simp [hne]⟩
  have hlineblock : leafLine sub.name u ∈
      folderBlock (folderKey sub)
        (lookupBucket (groupByFolder subs) (folderKey sub)) := by
    rw [folderBlock]
    exact List.mem_append.mpr (Or.inl (List.mem_append.mpr (Or.inr hlineleaf)))
  have hflat : leafLine sub.name u ∈
      ((groupByFolder subs).map (fun p => folderBlock p.1 p.2)).flatten := by
    rw [List.mem_flatten]
    exact ⟨_, List.mem_map.mpr ⟨_, hbmem, rfl⟩, hlineblock⟩
  have hline : leafLine sub.name u ∈ opmlLines subs today := by
    rw [opmlLines]
    exact List.mem_append.mpr (Or.inl (List.mem_append.mpr (Or.inr hflat)))
  exact concatAll_mem_decomp _ _ hline

/-- Witness for C3 (amended): the concrete document for `subW` contains
its name and URL verbatim inside the leaf line. -/
theorem c3_witness :
    ∃ p q, export_to_opml [subW] "2024-01-01" =
      p ++ (leafPat ++ "Tech News" ++ "\" title=\"" ++ "Tech News" ++
        "\" xmlUrl=\"" ++ "https://example.com/feed" ++ "\"/>\n") ++ q :=
  c3_verbatim_interpolation [subW] "2024-01-01" subW
    (List.mem_singleton.mpr rfl) "https://example.com/feed" rfl (by simp)

/-- Counterexample to claim C3 as stated: a subscription without a URL is
skipped wholesale by the serializer, so its name (`"a&b"`) does not
appear in the produced document at all — the "for every subscription"
quantification fails. -/
theorem c3_counterexample :
    occursIn "a&b" (export_to_opml [subNoUrl] "2024-01-01") = false := rfl

/-- Claim C4 (amended): when at least one of the three environment
variables is missing or empty (Python-falsy), `main` fails with a
configuration error whose message names exactly the falsy variables (all
of them, in a fixed order), no default is substituted, and the outcome is
the same for every possible HTTP response — no network call is needed.
(Whitespace-only values are truthy in Python and pass validation, so
"blank" is dropped from the claim.) -/
theorem c4_config_error_names_all (token host graphql_path : Option String)
    (h : pyFalsy token = true ∨ pyFalsy host = true ∨
      pyFalsy graphql_path = true) :
    (∀ (excludeUnfetched : Bool) (resp : HttpResponse) (today : String),
      runMain token host graphql_path excludeUnfetched resp today =
        RunResult.configError
          ("Missing required environment variables: " ++
            joinWith ", " (missingVars token host graphql_path))) ∧
    ("OMNIVORE_API_TOKEN" ∈ missingVars token host graphql_path ↔
      pyFalsy token = true) ∧
    ("OMNIVORE_HOST" ∈ missingVars token host graphql_path ↔
      pyFalsy host = true) ∧
    ("OMNIVORE_GRAPH_QL_PATH" ∈ missingVars token host graphql_path ↔
      pyFalsy graphql_path = true) := by
  have hne : missingVars token host graphql_path ≠ [] := by
    rcases h with h | h | h <;> simp [missingVars, h]
  refine ⟨?_, ?_, ?_, ?_⟩
  · intro excludeUnfetched resp today
    rw [runMain, configCheck]
    cases hm : missingVars token host graphql_path with
    | nil => exact absurd hm hne
    | cons a t => rfl
  all_goals {
    by_cases h1 : pyFalsy token <;> by_cases h2 : pyFalsy host <;>
      by_cases h3 : pyFalsy graphql_path <;>
      simp [missingVars, h1, h2, h3]
  }

/-- Witness for C4 (amended): with `OMNIVORE_API_TOKEN` absent, `main`
fails with a configuration error naming it, whatever the response. -/
theorem c4_witness :
    runMain none (some "h") (some "p") false respW "2024-01-01" =
      RunResult.configError
        ("Missing required environment variables: " ++
          joinWith ", " (missingVars none (some "h") (some "p"))) :=
  (c4_config_error_names_all none (some "h") (some "p") (Or.inl rfl)).1
    false respW "2024-01-01"

/-- Counterexample to claim C4 as stated: a whitespace-only
`OMNIVORE_HOST` is truthy in Python, so it passes validation and the run
proceeds to the fetch and succeeds — no configuration error is raised. -/
theorem c4_counterexample :
    runMain (some "t") (some " ") (some "p") false respW "2024-01-01" =
      RunResult.success (export_to_opml [subW] "2024-01-01") := rfl
